import Mathlib

set_option linter.unusedVariables false

/-!
Verification of the Shucks musical guessing game (shucks.py).

The Python source is shallowly embedded. Pure fragments become Lean
functions; stateful methods become explicit state-passing functions over
record types; the two audio-thread bodies become discrete-time functions
with time measured in milliseconds; `random.choice` and `random.sample`
are modelled by an oracle argument selecting an element, respectively an
arrangement. Characters are compared through their code points
(`Char.toNat`), matching the ASCII data the program works with.
-/

namespace Shucks

abbrev Title := String
abbrev ClipId := String

/-- ASCII model of Python `char.lower()`: the uppercase letters A-Z (codes
65-90) map to a-z; every other character is unchanged. -/
def pyToLowerChar (c : Char) : Char :=
  if 65 ≤ c.toNat ∧ c.toNat ≤ 90 then Char.ofNat (c.toNat + 32) else c

/-- Model of Python `str.lower()`. -/
def pyLower (s : String) : String := String.mk (s.data.map pyToLowerChar)

/-- Model of Python `s.startswith(p)`. -/
def pyStartsWith (s p : String) : Bool := p.data.isPrefixOf s.data

/-- ASCII model of Python `str.isalpha` on a single character. -/
def pyIsAlphaChar (c : Char) : Bool :=
  decide ((65 ≤ c.toNat ∧ c.toNat ≤ 90) ∨ (97 ≤ c.toNat ∧ c.toNat ≤ 122))

/-- ASCII model of Python `str.isdigit` on a single character. -/
def pyIsDigitChar (c : Char) : Bool := decide (48 ≤ c.toNat ∧ c.toNat ≤ 57)

/-- Model of Python `str.isdigit` on a string: nonempty and all digits. -/
def pyIsDigitStr (s : String) : Bool := !s.data.isEmpty && s.data.all pyIsDigitChar

/-- Model of Python `int(s)` on an all-digit string. -/
def pyInt (s : String) : ℕ := s.data.foldl (fun acc c => acc * 10 + (c.toNat - 48)) 0

/-- Model of `random.choice(l)` where the oracle `rnd` selects the index
`rnd % l.length`; `none` exactly when the list is empty (where the Python
call would raise, which the call sites guard against). -/
def randomChoice (l : List ClipId) (rnd : ℕ) : Option ClipId :=
  l.get? (rnd % l.length)

/-- The VALID_ACTIONS set from shucks.py. -/
def VALID_ACTIONS : List String := ["s", "S", "a", "A", "r", "R", "q", "Q"]

/-! ### Playback-thread bodies (ShucksGame.play_audio and
InteractiveGameInput._play_audio_once)

Time is in milliseconds. `busyUntil` is the instant at which
`pygame.mixer.get_busy()` turns false (the natural end of the clip);
`stopAt` is the instant at which the foreground thread raises the stop
signal. `play_audio` checks `get_busy() and not stop_audio` once per
iteration and sleeps 0.1 s (100 ms) between checks, so the model advances
the clock by 100 per iteration. The fuel `busyUntil + 1` is always enough
for the loop to exit on its own, since each iteration advances the clock
by 100. The result is the time at which the thread terminates
(`sound.stop()` has run). -/

def play_audio_loop (busyUntil stopAt : ℕ) : ℕ → ℕ → ℕ
  | 0, t => t
  | fuel + 1, t =>
    if t < busyUntil ∧ t < stopAt then play_audio_loop busyUntil stopAt fuel (t + 100)
    else t

/-- Termination time of the line-buffered mode's background playback
activity (ShucksGame.play_audio). -/
def play_audio (busyUntil stopAt : ℕ) : ℕ :=
  play_audio_loop busyUntil stopAt (busyUntil + 1) 0

/-- Termination time of the interactive mode's background playback
activity (InteractiveGameInput._play_audio_once). The body is
`sound.play(); pygame.time.wait(int(sound.get_length() * 1000));
sound.stop()`: it waits out the full clip length and never reads
`self.stop_audio`, so its termination time is `lengthMs` no matter when
the stop signal was raised. -/
def play_audio_once_exitTime (lengthMs stopAt : ℕ) : ℕ := lengthMs

/-- How many times InteractiveGameInput._play_audio_once consults the stop
signal during its run: the body contains no read of `self.stop_audio`. -/
def play_audio_once_stopChecks (lengthMs stopAt : ℕ) : ℕ := 0

/-! ### The interactive playback controller (stop_audio_and_wait) -/

/-- State of the interactive mode's audio controller: `threadRemaining` is
`none` when no thread object exists (`self.audio_thread is None`) and
`some r` when a thread exists that needs `r` more milliseconds to finish
(a finished thread has `r = 0` and `join` on it returns immediately);
`stopSet` models `self.stop_audio.is_set()`. -/
structure AudioCtl where
  threadRemaining : Option ℕ
  stopSet : Bool
deriving DecidableEq

/-- Model of InteractiveGameInput.stop_audio_and_wait: set the stop event,
join the thread if one exists (blocking for its remaining run time, which
the signal does not shorten since _play_audio_once never reads it), then
clear the event. Returns the new controller state and the number of
milliseconds the caller was blocked. -/
def stop_audio_and_wait (a : AudioCtl) : AudioCtl × ℕ :=
  match a.threadRemaining with
  | none => ({ threadRemaining := none, stopSet := false }, 0)
  | some r => ({ threadRemaining := some 0, stopSet := false }, r)

/-! ### Interactive-mode session state (InteractiveGameInput) -/

structure IState where
  songs : List (Title × List ClipId)
  song_titles : List Title
  unguessed_files : List ClipId
  current_file : Option ClipId
  current_input : String
  total_questions : ℕ
  correct_answers : ℕ
deriving DecidableEq

/-- Model of `self.songs[title]`-style membership lists: the list
comprehension `[title for title in self.song_titles if
title.lower().startswith(inp.lower())]` shared by display_matches and
check_guess. -/
def matchesOf (titles : List Title) (inp : String) : List Title :=
  titles.filter (fun t => pyStartsWith (pyLower t) (pyLower inp))

/-- Modelled from the spec: `candidates = titles().filter(title ->
normalize(title).startsWith(normalize(buffer)))` where normalization is
lower-casing. Stated separately from `matchesOf` (which is translated from
the source) so the two can be compared. -/
def specCandidates (titles : List Title) (buffer : String) : List Title :=
  titles.filter (fun t => pyStartsWith (pyLower t) (pyLower buffer))

/-- Model of InteractiveGameInput.get_current_song_title: the first
(title, files) pair whose files contain the current file, else `none`
(a `None` current file is in no list). -/
def IgetCurrentSongTitle (s : IState) : Option Title :=
  match s.songs.find? (fun p =>
    match s.current_file with
    | some c => p.2.contains c
    | none => false) with
  | some p => some p.1
  | none => none

/-- What display_matches renders below the fixed header. -/
inductive Rendering
  | nothing
  | matchList (ms : List Title)
  | nope
deriving DecidableEq

/-- Model of InteractiveGameInput.display_matches: with an empty buffer
nothing is rendered; otherwise either the match list, or "Nope." with the
buffer reset. -/
def IdisplayMatches (s : IState) : IState × Rendering :=
  if s.current_input = "" then (s, Rendering.nothing)
  else
    match matchesOf s.song_titles s.current_input with
    | [] => ({ s with current_input := "" }, Rendering.nope)
    | ms => (s, Rendering.matchList ms)

/-- Outcome of InteractiveGameInput.check_guess: `correct` is the True
return; `incorrect` and `noResolve` both return False, distinguished here
by whether a unique match existed and was wrong (buffer cleared) or no
unique match existed (buffer kept). -/
inductive GuessOutcome
  | correct
  | incorrect
  | noResolve
deriving DecidableEq

/-- Model of InteractiveGameInput.check_guess. The source computes the
match list, and when it has exactly one element (the redundant
`matches[0].lower().startswith(guess.lower())` conjunct is kept) compares
it against the current song's title: equality bumps correct_answers and
clears the buffer; inequality just clears the buffer. The
stop_audio_and_wait call on the correct path is modelled separately by
`AudioCtl`. -/
def IcheckGuess (s : IState) (guess : String) : IState × GuessOutcome :=
  match matchesOf s.song_titles guess with
  | [m] =>
    if pyStartsWith (pyLower m) (pyLower guess) then
      if some m = IgetCurrentSongTitle s then
        ({ s with correct_answers := s.correct_answers + 1, current_input := "" },
         GuessOutcome.correct)
      else
        ({ s with current_input := "" }, GuessOutcome.incorrect)
    else (s, GuessOutcome.noResolve)
  | _ => (s, GuessOutcome.noResolve)

/-- What process_input tells its caller: check the buffer as a guess
(returned True), do not (returned False), or exit the program (the Ctrl-C
branch calls sys.exit). -/
inductive PInput
  | checkGuess
  | noCheck
  | exitProgram
deriving DecidableEq

/-- Model of InteractiveGameInput.process_input; the third component is
the message printed, if any. Branch order follows the source: isalpha,
backspace (code 127), Ctrl-C (code 3), isdigit, otherwise ignore. -/
def IprocessInput (s : IState) (c : Char) : IState × PInput × Option String :=
  if pyIsAlphaChar c then
    ({ s with current_input := s.current_input.push (pyToLowerChar c) },
     PInput.checkGuess, none)
  else if c.toNat = 127 then
    if s.current_input ≠ "" then
      ({ s with current_input := s.current_input.dropRight 1 }, PInput.checkGuess, none)
    else (s, PInput.noCheck, none)
  else if c.toNat = 3 then
    (s, PInput.exitProgram, some "Exiting the game.")
  else if pyIsDigitChar c then
    ({ s with current_input := "" }, PInput.noCheck, some "Bad input.")
  else
    (s, PInput.noCheck, none)

/-- Model of InteractiveGameInput.select_new_file: draw a clip from the
pool and remove it from the pool immediately. -/
def IselectNewFile (s : IState) (rnd : ℕ) : IState :=
  match randomChoice s.unguessed_files rnd with
  | some c =>
    { s with current_file := some c, unguessed_files := s.unguessed_files.erase c }
  | none => s

/-! ### Line-buffered mode (NormalGameInput) with playback-thread
bookkeeping events -/

/-- Observable events of one normal-mode session, in program order.
`startPlay` is a `self.audio_thread = Thread(...); start()` (overwriting
the previous handle); `stopJoin` is `self.stop_audio = True` followed by
`self.audio_thread.join()` of the currently tracked thread; the mutation
events are changes of `current_file` and of `unguessed_files`, and
`endProgram` is the program ending. -/
inductive Event
  | stopJoin
  | startPlay
  | mutateClip
  | mutatePool
  | endProgram
deriving DecidableEq

structure NormalState where
  songs : List (Title × List ClipId)
  song_titles : List Title
  unguessed_files : List ClipId
  current_file : Option ClipId
  total_questions : ℕ
  correct_answers : ℕ
deriving DecidableEq

/-- Model of `self.songs[title]` (the titles handed to it are always
keys, so the KeyError case is modelled by the empty list). -/
def lookupSong (songs : List (Title × List ClipId)) (t : Title) : List ClipId :=
  match songs.find? (fun p => p.1 == t) with
  | some p => p.2
  | none => []

/-- Result of NormalGameInput.check_guess together with the events it
performs. -/
structure NGuess where
  state : NormalState
  isCorrect : Bool
  events : List Event

/-- Model of NormalGameInput.check_guess: on a correct guess the current
file is removed from the pool and a new current file is drawn from the
remaining pool (None if it became empty); otherwise nothing changes. -/
def NcheckGuess (s : NormalState) (guessIndex rnd : ℕ) : NGuess :=
  match s.song_titles.get? guessIndex with
  | none => { state := s, isCorrect := false, events := [] }
  | some guessedTitle =>
    match s.current_file with
    | none => { state := s, isCorrect := false, events := [] }
    | some cur =>
      if (lookupSong s.songs guessedTitle).contains cur then
        let pool := s.unguessed_files.erase cur
        { state := { s with unguessed_files := pool, current_file := randomChoice pool rnd }
          isCorrect := true
          events := [Event.mutatePool, Event.mutateClip] }
      else { state := s, isCorrect := false, events := [] }

/-- Result of one user action in normal mode. `cont` is the boolean the
source returns (False ends the game loop); `gotCorrect` records whether a
correct resolution happened in this action. -/
structure NStep where
  state : NormalState
  cont : Bool
  events : List Event
  gotCorrect : Bool

/-- Model of NormalGameInput.handle_guess on the (already lower-cased)
accepted input: q quits, s and a draw a new current file, r does nothing
here, and anything else is a numeric guess checked by check_guess, with
correct_answers incremented on success. -/
def NhandleGuess (s : NormalState) (u : String) (rnd : ℕ) : NStep :=
  if u = "q" then { state := s, cont := false, events := [], gotCorrect := false }
  else if u = "s" then
    { state := { s with current_file := randomChoice s.unguessed_files rnd }
      cont := true, events := [Event.mutateClip], gotCorrect := false }
  else if u = "a" then
    { state := { s with current_file := randomChoice s.unguessed_files rnd }
      cont := true, events := [Event.mutateClip], gotCorrect := false }
  else if u = "r" then { state := s, cont := true, events := [], gotCorrect := false }
  else
    let g := NcheckGuess s (pyInt u - 1) rnd
    if g.isCorrect then
      { state := { g.state with correct_answers := g.state.correct_answers + 1 }
        cont := true, events := g.events, gotCorrect := true }
    else { state := g.state, cont := true, events := g.events, gotCorrect := false }

/-- Model of NormalGameInput.handle_user_interaction: on r it raises the
stop flag, joins the tracked thread and immediately restarts playback of
the same clip; on anything else it raises the stop flag, joins the
tracked thread and dispatches to handle_guess. -/
def NhandleUserInteraction (s : NormalState) (u : String) (rnd : ℕ) : NStep :=
  if u = "r" then
    { state := s, cont := true, events := [Event.stopJoin, Event.startPlay]
      gotCorrect := false }
  else
    let g := NhandleGuess s u rnd
    { g with events := Event.stopJoin :: g.events }

/-- Model of ShucksGame.select_and_play_file: pick a current file if there
is none, then (unconditionally) start playback of it on a fresh thread. -/
def NselectAndPlay (s : NormalState) (rnd : ℕ) : NormalState × List Event :=
  match s.current_file with
  | none =>
    ({ s with current_file := randomChoice s.unguessed_files rnd },
     [Event.mutateClip, Event.startPlay])
  | some _ => (s, [Event.startPlay])

/-- One iteration of the body of ShucksGame.play: select-and-play, then
one user interaction. -/
def NplayStep (s : NormalState) (u : String) (rnd : ℕ) : NStep :=
  let sel := NselectAndPlay s rnd
  let st := NhandleUserInteraction sel.1 u rnd
  { st with events := sel.2 ++ st.events }

/-- Result of running the normal-mode game loop over a list of user
inputs. -/
structure NRun where
  state : NormalState
  events : List Event
  ncorrect : ℕ

/-- Model of ShucksGame.play: loop while the pool is nonempty, consuming
one (input, oracle) pair per iteration; a False from the interaction, or
an empty pool, ends the program. When the supplied inputs run out the
model simply stops (mid-session), emitting no end event. -/
def NplayLoop (s : NormalState) : List (String × ℕ) → NRun
  | [] => { state := s, events := [], ncorrect := 0 }
  | (u, rnd) :: rest =>
    if s.unguessed_files.isEmpty then
      { state := s, events := [Event.endProgram], ncorrect := 0 }
    else
      let st := NplayStep s u rnd
      if st.cont then
        let r := NplayLoop st.state rest
        { state := r.state
          events := st.events ++ r.events
          ncorrect := (if st.gotCorrect then 1 else 0) + r.ncorrect }
      else
        { state := st.state, events := st.events ++ [Event.endProgram]
          ncorrect := if st.gotCorrect then 1 else 0 }

/-! ### Thread bookkeeping over event traces -/

/-- Live playback threads at a point of a trace: whether the thread
currently referenced by `self.audio_thread` is live (started and not yet
joined), and how many started threads have had their handle overwritten
without ever being joined. -/
structure ThreadCount where
  trackedLive : Bool
  orphans : ℕ
deriving DecidableEq

/-- Effect of an event on the live-thread bookkeeping: a start overwrites
the tracked handle (orphaning the previous thread if it was never
joined); a stop-and-join retires the tracked thread only. -/
def stepThread (tc : ThreadCount) : Event → ThreadCount
  | Event.startPlay =>
    { trackedLive := true, orphans := tc.orphans + (if tc.trackedLive then 1 else 0) }
  | Event.stopJoin => { tc with trackedLive := false }
  | _ => tc

def isMutation : Event → Bool
  | Event.mutateClip => true
  | Event.mutatePool => true
  | Event.endProgram => true
  | _ => false

/-- The stop-before-mutate property of a trace: every mutation of the
current clip or the pool, and the program end, happens while no playback
thread is live without having been joined. -/
def stopBeforeMutate : ThreadCount → List Event → Bool
  | _, [] => true
  | tc, e :: rest =>
    (if isMutation e then !tc.trackedLive && tc.orphans == 0 else true)
    && stopBeforeMutate (stepThread tc e) rest

/-! ### Session construction (get_unguessed_files) and main -/

/-- Model of ShucksGame.get_unguessed_files: default the requested count
(all files, or 5 in debug mode), reject a count below 1 or above the
library size with a ValueError, otherwise sample that many files
(`random.sample` is modelled as taking the first n of the oracle-chosen
arrangement the caller passes in as `all_files`). -/
def get_unguessed_files (all_files : List ClipId) (debug_mode : Bool)
    (num_files : Option Int) : Except String (List ClipId) :=
  let n : Int :=
    match num_files with
    | none => if debug_mode then 5 else (all_files.length : Int)
    | some k => k
  if n < 1 ∨ (all_files.length : Int) < n then
    Except.error "Invalid number of files"
  else
    Except.ok (all_files.take n.toNat)

structure MainOutcome where
  playEntered : Bool
  errorReported : Option String
deriving DecidableEq

/-- Model of main's try block: constructing the game runs
get_unguessed_files; a ValueError is caught, printed, and play() is never
called; otherwise play() runs. -/
def mainModel (all_files : List ClipId) (debug_mode : Bool)
    (num_files : Option Int) : MainOutcome :=
  match get_unguessed_files all_files debug_mode num_files with
  | Except.error e => { playEntered := false, errorReported := some e }
  | Except.ok _ => { playEntered := true, errorReported := none }

/-! ### Line-buffered input validation (NormalGameInput.get_user_input) -/

/-- Model of the acceptance test in NormalGameInput.get_user_input: the
lower-cased line is accepted iff it is in VALID_ACTIONS or is an all-digit
string whose value is between 1 and the number of titles; anything else is
re-prompted. -/
def get_user_input_accepts (numTitles : ℕ) (raw : String) : Bool :=
  let u := pyLower raw
  VALID_ACTIONS.contains u ||
    (pyIsDigitStr u && (decide (1 ≤ pyInt u) && decide (pyInt u ≤ numTitles)))

/-! ### Concrete states used as inputs to the claims -/

/-- Line-buffered session start: two songs, one clip each. -/
def initNormal : NormalState :=
  { songs := [("Song A", ["a1"]), ("Song B", ["b1"])]
    song_titles := ["Song A", "Song B"]
    unguessed_files := ["a1", "b1"]
    current_file := none
    total_questions := 2
    correct_answers := 0 }

/-- Interactive session start for a library of one title with two clips:
the constructor sets total_questions to len(songs) = 1 while the pool has
two clips. -/
def initInteractiveOneTitle : IState :=
  { songs := [("Abba", ["abba_1", "abba_2"])]
    song_titles := ["Abba"]
    unguessed_files := ["abba_1", "abba_2"]
    current_file := none
    current_input := ""
    total_questions := 1
    correct_answers := 0 }

/-- Interactive mid-session state: a single-title library, the only clip
is being asked (so it has already left the pool) and the buffer holds the
letter a. -/
def exOneTitle : IState :=
  { songs := [("Abba", ["abba_1"])]
    song_titles := ["Abba"]
    unguessed_files := []
    current_file := some "abba_1"
    current_input := "a"
    total_questions := 1
    correct_answers := 0 }

/-- Interactive mid-session state with two titles, empty buffer, a clip
being asked. -/
def exTwoTitles : IState :=
  { songs := [("Song A", ["a1"]), ("Song B", ["b1"])]
    song_titles := ["Song A", "Song B"]
    unguessed_files := ["b1"]
    current_file := some "a1"
    current_input := ""
    total_questions := 2
    correct_answers := 0 }

/-- The session invariant of the line-buffered mode: the current file (if
any) is still in the pool, and the score plus the pool size equals the
question total. -/
def NormalInv (s : NormalState) : Prop :=
  (∀ c, s.current_file = some c → c ∈ s.unguessed_files) ∧
  s.correct_answers + s.unguessed_files.length = s.total_questions

/-! ### Helper lemmas -/

theorem randomChoice_mem {l : List ClipId} {rnd : ℕ} {c : ClipId}
    (h : randomChoice l rnd = some c) : c ∈ l :=
  List.get?_mem h

theorem randomChoice_isSome {l : List ClipId} (h : l ≠ []) (rnd : ℕ) :
    ∃ c, randomChoice l rnd = some c := by
  have hlen : 0 < l.length := List.length_pos.mpr h
  have hlt : rnd % l.length < l.length := Nat.mod_lt _ hlen
  exact ⟨l.get ⟨rnd % l.length, hlt⟩, List.get?_eq_get hlt⟩

theorem matchesOf_empty_buffer (titles : List Title) : matchesOf titles "" = titles :=
  List.filter_eq_self.mpr (fun a _ => by
    show List.isPrefixOf (pyLower "").data (pyLower a).data = true
    exact List.isPrefixOf_nil_left)

/-- The polling loop of play_audio terminates within 100 ms of whichever
comes first: the natural end of the clip or the stop request. -/
theorem play_audio_loop_le (busyUntil stopAt : ℕ) :
    ∀ fuel t, play_audio_loop busyUntil stopAt fuel t ≤ max t (min busyUntil stopAt + 100) := by
  intro fuel
  induction fuel with
  | zero => intro t; simp [play_audio_loop]
  | succ n ih =>
    intro t
    simp only [play_audio_loop]
    split
    · rename_i h
      have h2 := ih (t + 100)
      omega
    · omega

/-! ### Claims -/

/-- Claim C2 is false on the code: the interactive mode's playback
activity (_play_audio_once) consults the stop signal zero times and, for a
5000 ms clip with the stop signal raised at time 0, terminates only at
5000 ms — it waits out the remaining clip duration instead of returning
within roughly 100 ms. The line-buffered activity (play_audio), by
contrast, terminates by 100 ms in the same situation. -/
theorem C2_claim_false_play_once_ignores_stop :
    play_audio_once_stopChecks 5000 0 = 0 ∧
    play_audio_once_exitTime 5000 0 = 5000 ∧
    ¬ play_audio_once_exitTime 5000 0 ≤ 100 ∧
    play_audio 5000 0 ≤ 100 :=
  ⟨rfl, rfl, by decide, by decide⟩

/-- Claim C2 (amended): the line-buffered mode's playback activity
re-checks its stop signal every 100 ms, so it terminates within 100 ms of
the stop request (or of the clip's natural end); the interactive mode's
play-once activity never consults the stop signal and terminates only at
the clip's full length, whenever the stop was requested. -/
theorem C2_amended_poll_latency :
    (∀ busyUntil stopAt : ℕ, play_audio busyUntil stopAt ≤ min busyUntil stopAt + 100) ∧
    (∀ lengthMs stopAt : ℕ, play_audio_once_exitTime lengthMs stopAt = lengthMs ∧
      play_audio_once_stopChecks lengthMs stopAt = 0) := by
  constructor
  · intro b st
    have h := play_audio_loop_le b st (b + 1) 0
    unfold play_audio
    omega
  · intro l st
    exact ⟨rfl, rfl⟩

/-- Claim C7: stop_audio_and_wait is idempotent (the second of two
consecutive calls blocks for 0 ms and leaves the controller state fixed),
and a call with no live thread returns immediately. -/
theorem C7_stop_idempotent (a : AudioCtl) :
    (stop_audio_and_wait (stop_audio_and_wait a).1).2 = 0 ∧
    (stop_audio_and_wait (stop_audio_and_wait a).1).1 = (stop_audio_and_wait a).1 ∧
    (a.threadRemaining = none → (stop_audio_and_wait a).2 = 0) := by
  rcases a with ⟨_ | r, flag⟩
  · exact ⟨rfl, rfl, fun _ => rfl⟩
  · exact ⟨rfl, rfl, fun h => Option.noConfusion h⟩

theorem C7_stop_idempotent_witness :
    (stop_audio_and_wait { threadRemaining := none, stopSet := false }).2 = 0 ∧
    (stop_audio_and_wait
      (stop_audio_and_wait { threadRemaining := some 5000, stopSet := false }).1).2 = 0 :=
  ⟨(C7_stop_idempotent { threadRemaining := none, stopSet := false }).2.2 rfl,
   (C7_stop_idempotent { threadRemaining := some 5000, stopSet := false }).1⟩

/-- Claim C8: a digit input event clears the buffer, is reported with the
message "Bad input." (not the "Nope." used for a genuine zero-candidate
outcome), is not treated as a guess and does not exit; the current clip,
pool and score are untouched, so the session continues against the same
clip. -/
theorem C8_digit_rejection (s : IState) (c : Char) (h : pyIsDigitChar c = true) :
    IprocessInput s c = ({ s with current_input := "" }, PInput.noCheck, some "Bad input.") ∧
    "Bad input." ≠ "Nope." ∧
    (IprocessInput s c).2.1 ≠ PInput.exitProgram ∧
    (IprocessInput s c).1.current_file = s.current_file ∧
    (IprocessInput s c).1.correct_answers = s.correct_answers ∧
    (IprocessInput s c).1.unguessed_files = s.unguessed_files := by
  have hn : 48 ≤ c.toNat ∧ c.toNat ≤ 57 := by simpa [pyIsDigitChar] using h
  have halpha : pyIsAlphaChar c = false := by
    simp only [pyIsAlphaChar, decide_eq_false_iff_not]
    omega
  have h127 : ¬ c.toNat = 127 := by omega
  have h3 : ¬ c.toNat = 3 := by omega
  have key : IprocessInput s c
      = ({ s with current_input := "" }, PInput.noCheck, some "Bad input.") := by
    simp [IprocessInput, halpha, h127, h3, h]
  refine ⟨key, by decide, ?_, ?_, ?_, ?_⟩ <;> simp [key]

theorem C8_digit_rejection_witness :
    IprocessInput exTwoTitles '5'
      = ({ exTwoTitles with current_input := "" }, PInput.noCheck, some "Bad input.") :=
  (C8_digit_rejection exTwoTitles '5' (by decide)).1

/-- Claim C9: a requested pool size that is zero, negative, or larger than
the library raises a ValueError during construction, which main catches
and reports; play() is never entered. -/
theorem C9_config_error (files : List ClipId) (dbg : Bool) (k : Int)
    (h : k ≤ 0 ∨ (files.length : Int) < k) :
    mainModel files dbg (some k)
      = { playEntered := false, errorReported := some "Invalid number of files" } := by
  have hc : k < 1 ∨ (files.length : Int) < k := by omega
  simp only [mainModel, get_unguessed_files]
  rw [if_pos hc]

theorem C9_config_error_witness :
    mainModel ["a1"] false (some 0)
      = { playEntered := false, errorReported := some "Invalid number of files" } :=
  C9_config_error ["a1"] false 0 (Or.inl (by decide))

/-- Claim C10: every line accepted by the normal-mode input loop is (after
lower-casing) one of the valid action strings or an all-digit string whose
value lies between 1 and the number of titles, so the index it passes to
check_guess is in bounds and the title lookup succeeds. -/
theorem C10_accepted_input_in_bounds (titles : List Title) (raw : String)
    (h : get_user_input_accepts titles.length raw = true) :
    pyLower raw ∈ VALID_ACTIONS ∨
    (pyIsDigitStr (pyLower raw) = true ∧ 1 ≤ pyInt (pyLower raw) ∧
      pyInt (pyLower raw) ≤ titles.length ∧
      ∃ t, titles.get? (pyInt (pyLower raw) - 1) = some t) := by
  unfold get_user_input_accepts at h
  rcases (Bool.or_eq_true _ _).mp h with h1 | h2
  · left
    have : (pyLower raw) ∈ VALID_ACTIONS := by
      have := h1
      simp only [List.contains] at this
      exact List.elem_iff.mp this
    exact this
  · right
    rcases (Bool.and_eq_true _ _).mp h2 with ⟨hd, hb⟩
    rcases (Bool.and_eq_true _ _).mp hb with ⟨hlo, hhi⟩
    have hlo' : 1 ≤ pyInt (pyLower raw) := of_decide_eq_true hlo
    have hhi' : pyInt (pyLower raw) ≤ titles.length := of_decide_eq_true hhi
    have hlt : pyInt (pyLower raw) - 1 < titles.length := by omega
    exact ⟨hd, hlo', hhi', ⟨titles.get ⟨_, hlt⟩, List.get?_eq_get hlt⟩⟩

theorem C10_accepted_input_in_bounds_witness :
    pyLower "1" ∈ VALID_ACTIONS ∨
    (pyIsDigitStr (pyLower "1") = true ∧ 1 ≤ pyInt (pyLower "1") ∧
      pyInt (pyLower "1") ≤ (["Song A"] : List Title).length ∧
      ∃ t, (["Song A"] : List Title).get? (pyInt (pyLower "1") - 1) = some t) :=
  C10_accepted_input_in_bounds ["Song A"] "1" (by decide)

/-- Claim C4: a quit request is a pure frame transition. In line-buffered
mode handle_guess on q returns False (ending the loop) with the state —
in particular correct_answers and the pool, hence the membership of the
current clip in it — exactly as before; in interactive mode the Ctrl-C
branch of process_input reports program exit with the state unchanged. -/
theorem C4_quit_frame (s : NormalState) (rnd : ℕ) (si : IState) :
    (NhandleGuess s "q" rnd).state = s ∧
    (NhandleGuess s "q" rnd).cont = false ∧
    (NhandleGuess s "q" rnd).state.correct_answers = s.correct_answers ∧
    (NhandleGuess s "q" rnd).state.unguessed_files = s.unguessed_files ∧
    (IprocessInput si '\x03').1 = si ∧
    (IprocessInput si '\x03').2.1 = PInput.exitProgram ∧
    (IprocessInput si '\x03').1.correct_answers = si.correct_answers ∧
    (IprocessInput si '\x03').1.unguessed_files = si.unguessed_files :=
  ⟨rfl, rfl, rfl, rfl, rfl, rfl, rfl, rfl⟩

/-- Claim C5: the match list computed by the code coincides with the
spec's candidate rule (case-normalized prefix filter over the titles); a
resolution is attempted exactly when that candidate set has exactly one
element; and the correct/incorrect split is decided separately, by
comparing the unique candidate to the current clip's title. -/
theorem C5_matcher_candidates (s : IState) (guess : String) :
    matchesOf s.song_titles guess = specCandidates s.song_titles guess ∧
    ((IcheckGuess s guess).2 ≠ GuessOutcome.noResolve ↔
      (specCandidates s.song_titles guess).length = 1) ∧
    ((IcheckGuess s guess).2 = GuessOutcome.correct ↔
      ∃ t, specCandidates s.song_titles guess = [t] ∧ IgetCurrentSongTitle s = some t) ∧
    ((IcheckGuess s guess).2 = GuessOutcome.incorrect ↔
      ∃ t, specCandidates s.song_titles guess = [t] ∧ IgetCurrentSongTitle s ≠ some t) := by
  have hspec : specCandidates s.song_titles guess = matchesOf s.song_titles guess := rfl
  rw [hspec]
  rcases hm : matchesOf s.song_titles guess with _ | ⟨m, _ | ⟨m2, rest⟩⟩
  · have hck : IcheckGuess s guess = (s, GuessOutcome.noResolve) := by
      simp [IcheckGuess, hm]
    rw [hck]
    refine ⟨rfl, by simp, by simp, by simp⟩
  · have hmem : m ∈ List.filter
        (fun t => pyStartsWith (pyLower t) (pyLower guess)) s.song_titles := by
      have : m ∈ matchesOf s.song_titles guess := by
        rw [hm]; exact List.mem_singleton_self m
      exact this
    have hpred : pyStartsWith (pyLower m) (pyLower guess) = true :=
      (List.mem_filter.mp hmem).2
    by_cases hcor : some m = IgetCurrentSongTitle s
    · have hck : (IcheckGuess s guess).2 = GuessOutcome.correct := by
        simp [IcheckGuess, hm, hpred, hcor]
      rw [hck]
      refine ⟨rfl, by simp, ?_, ?_⟩
      · simp only [true_iff]
        exact ⟨m, rfl, hcor.symm⟩
      · constructor
        · intro hcontra; exact absurd hcontra (by simp)
        · rintro ⟨t, ht, htt⟩
          have hmt : m = t := by simpa using ht
          subst hmt
          exact absurd hcor.symm htt
    · have hck : (IcheckGuess s guess).2 = GuessOutcome.incorrect := by
        simp [IcheckGuess, hm, hpred, hcor]
      rw [hck]
      refine ⟨rfl, by simp, ?_, ?_⟩
      · constructor
        · intro hcontra; exact absurd hcontra (by simp)
        · rintro ⟨t, ht, htt⟩
          have hmt : m = t := by simpa using ht
          subst hmt
          exact absurd htt.symm hcor
      · simp only [true_iff]
        exact ⟨m, rfl, fun hh => hcor hh.symm⟩
  · have hck : IcheckGuess s guess = (s, GuessOutcome.noResolve) := by
      simp [IcheckGuess, hm]
    rw [hck]
    refine ⟨rfl, by simp, by simp, by simp⟩

theorem C5_matcher_candidates_witness :
    (IcheckGuess exOneTitle "a").2 = GuessOutcome.correct :=
  ((C5_matcher_candidates exOneTitle "a").2.2.1).mpr ⟨"Abba", by decide, by decide⟩

/-- Claim C6 is false on the code: in a library with exactly one title,
after a backspace empties the buffer, process_input still reports that the
buffer should be checked, and check_guess on the empty buffer resolves —
the candidate set for the empty buffer is all titles, here a single one —
and even scores it as correct. -/
theorem C6_claim_false_single_title_resolves :
    (IprocessInput exOneTitle '\x7f').1.current_input = "" ∧
    (IprocessInput exOneTitle '\x7f').2.1 = PInput.checkGuess ∧
    (IcheckGuess (IprocessInput exOneTitle '\x7f').1 "").2 = GuessOutcome.correct ∧
    (IcheckGuess (IprocessInput exOneTitle '\x7f').1 "").1.correct_answers = 1 :=
  ⟨by decide, by decide, by decide, by decide⟩

/-- Claim C6 (amended): with an empty buffer display_matches renders no
verdict (no "Nope.", no candidate list), and check_guess on the empty
buffer produces no resolution provided the library has at least two
titles; with exactly one title the empty buffer resolves to that title
(see the counterexample). -/
theorem C6_amended_empty_buffer (s : IState) :
    (s.current_input = "" → IdisplayMatches s = (s, Rendering.nothing)) ∧
    (2 ≤ s.song_titles.length → IcheckGuess s "" = (s, GuessOutcome.noResolve)) := by
  constructor
  · intro h
    simp [IdisplayMatches, h]
  · intro h2
    rcases hl : s.song_titles with _ | ⟨a, _ | ⟨b, l⟩⟩
    · rw [hl] at h2; simp at h2
    · rw [hl] at h2; simp at h2
    · have hme : matchesOf s.song_titles "" = a :: b :: l := by
        rw [matchesOf_empty_buffer, hl]
      simp [IcheckGuess, hme]

theorem C6_amended_empty_buffer_witness :
    IdisplayMatches exTwoTitles = (exTwoTitles, Rendering.nothing) ∧
    IcheckGuess exTwoTitles "" = (exTwoTitles, GuessOutcome.noResolve) :=
  ⟨(C6_amended_empty_buffer exTwoTitles).1 rfl,
   (C6_amended_empty_buffer exTwoTitles).2 (by decide)⟩

/-- Claim C3 is false on the code: in interactive mode select_new_file
removes the chosen clip from the pool at selection time (pool 2 → 1 with
zero correct resolutions so far, so the pool size is not K − N), a correct
resolution leaves the pool untouched, and after that completed resolution
totalCount — set to len(songs) = 1 title — differs from correctCount plus
the pool size (1 + 1 = 2). -/
theorem C3_claim_false_interactive_pool :
    (IselectNewFile initInteractiveOneTitle 0).correct_answers = 0 ∧
    (IselectNewFile initInteractiveOneTitle 0).unguessed_files.length = 1 ∧
    initInteractiveOneTitle.unguessed_files.length = 2 ∧
    (IcheckGuess (IselectNewFile initInteractiveOneTitle 0) "a").2 = GuessOutcome.correct ∧
    (IcheckGuess (IselectNewFile initInteractiveOneTitle 0) "a").1.unguessed_files
      = (IselectNewFile initInteractiveOneTitle 0).unguessed_files ∧
    (IcheckGuess (IselectNewFile initInteractiveOneTitle 0) "a").1.total_questions ≠
      (IcheckGuess (IselectNewFile initInteractiveOneTitle 0) "a").1.correct_answers +
      (IcheckGuess (IselectNewFile initInteractiveOneTitle 0) "a").1.unguessed_files.length :=
  ⟨by decide, by decide, by decide, by decide, by decide, by decide⟩

/-! ### Normal-mode invariant lemmas and the remaining claims -/

theorem NcheckGuess_inv (s : NormalState) (gi rnd : ℕ)
    (hcur : ∀ c, s.current_file = some c → c ∈ s.unguessed_files) :
    (∀ c, (NcheckGuess s gi rnd).state.current_file = some c →
        c ∈ (NcheckGuess s gi rnd).state.unguessed_files) ∧
    (NcheckGuess s gi rnd).state.unguessed_files.length +
        (if (NcheckGuess s gi rnd).isCorrect then 1 else 0) = s.unguessed_files.length ∧
    (NcheckGuess s gi rnd).state.correct_answers = s.correct_answers ∧
    (NcheckGuess s gi rnd).state.total_questions = s.total_questions ∧
    ((NcheckGuess s gi rnd).isCorrect = false → (NcheckGuess s gi rnd).state = s) := by
  rcases hget : s.song_titles[gi]? with _ | gt
  · have hck : NcheckGuess s gi rnd = { state := s, isCorrect := false, events := [] } := by
      simp [NcheckGuess, hget]
    rw [hck]
    exact ⟨hcur, rfl, rfl, rfl, fun _ => rfl⟩
  · rcases hcf : s.current_file with _ | cur
    · have hck : NcheckGuess s gi rnd = { state := s, isCorrect := false, events := [] } := by
        simp [NcheckGuess, hget, hcf]
      rw [hck]
      exact ⟨hcur, rfl, rfl, rfl, fun _ => rfl⟩
    · by_cases hin : (lookupSong s.songs gt).contains cur
      · have hin' : cur ∈ lookupSong s.songs gt := by simpa using hin
        have hmem : cur ∈ s.unguessed_files := hcur cur hcf
        have hlen : (s.unguessed_files.erase cur).length = s.unguessed_files.length - 1 :=
          List.length_erase_of_mem hmem
        have hpos : 0 < s.unguessed_files.length :=
          List.length_pos.mpr (List.ne_nil_of_mem hmem)
        have hck : NcheckGuess s gi rnd = { state := { s with unguessed_files := s.unguessed_files.erase cur, current_file := randomChoice (s.unguessed_files.erase cur) rnd }, isCorrect := true, events := [Event.mutatePool, Event.mutateClip] } := by
          simp [NcheckGuess, hget, hcf, hin']
        rw [hck]
        refine ⟨fun c hc => randomChoice_mem hc, ?_, rfl, rfl,
          fun hfalse => Bool.noConfusion hfalse⟩
        show (s.unguessed_files.erase cur).length + 1 = s.unguessed_files.length
        omega
      · have hin' : cur ∉ lookupSong s.songs gt := by simpa using hin
        have hck : NcheckGuess s gi rnd = { state := s, isCorrect := false, events := [] } := by
          simp [NcheckGuess, hget, hcf, hin']
        rw [hck]
        exact ⟨hcur, rfl, rfl, rfl, fun _ => rfl⟩

theorem NhandleGuess_inv (s : NormalState) (u : String) (rnd : ℕ)
    (hcur : ∀ c, s.current_file = some c → c ∈ s.unguessed_files) :
    (∀ c, (NhandleGuess s u rnd).state.current_file = some c →
        c ∈ (NhandleGuess s u rnd).state.unguessed_files) ∧
    (NhandleGuess s u rnd).state.unguessed_files.length +
        (if (NhandleGuess s u rnd).gotCorrect then 1 else 0) = s.unguessed_files.length ∧
    (NhandleGuess s u rnd).state.correct_answers =
        s.correct_answers + (if (NhandleGuess s u rnd).gotCorrect then 1 else 0) ∧
    (NhandleGuess s u rnd).state.total_questions = s.total_questions ∧
    ((NhandleGuess s u rnd).gotCorrect = false →
        (NhandleGuess s u rnd).state.unguessed_files = s.unguessed_files ∧
        (NhandleGuess s u rnd).state.correct_answers = s.correct_answers) := by
  by_cases hq : u = "q"
  · have hck : NhandleGuess s u rnd =
        { state := s, cont := false, events := [], gotCorrect := false } := by
      simp [NhandleGuess, hq]
    rw [hck]
    exact ⟨hcur, rfl, rfl, rfl, fun _ => ⟨rfl, rfl⟩⟩
  · by_cases hs : u = "s"
    · have hck : NhandleGuess s u rnd =
          { state := { s with current_file := randomChoice s.unguessed_files rnd }
            cont := true, events := [Event.mutateClip], gotCorrect := false } := by
        simp [NhandleGuess, hq, hs]
      rw [hck]
      exact ⟨fun c hc => randomChoice_mem hc, rfl, rfl, rfl, fun _ => ⟨rfl, rfl⟩⟩
    · by_cases ha : u = "a"
      · have hck : NhandleGuess s u rnd =
            { state := { s with current_file := randomChoice s.unguessed_files rnd }
              cont := true, events := [Event.mutateClip], gotCorrect := false } := by
          simp [NhandleGuess, hq, hs, ha]
        rw [hck]
        exact ⟨fun c hc => randomChoice_mem hc, rfl, rfl, rfl, fun _ => ⟨rfl, rfl⟩⟩
      · by_cases hr : u = "r"
        · have hck : NhandleGuess s u rnd =
              { state := s, cont := true, events := [], gotCorrect := false } := by
            simp [NhandleGuess, hq, hs, ha, hr]
          rw [hck]
          exact ⟨hcur, rfl, rfl, rfl, fun _ => ⟨rfl, rfl⟩⟩
        · have hg := NcheckGuess_inv s (pyInt u - 1) rnd hcur
          by_cases hc : (NcheckGuess s (pyInt u - 1) rnd).isCorrect
          · have hck : NhandleGuess s u rnd =
                { state := { (NcheckGuess s (pyInt u - 1) rnd).state with
                    correct_answers :=
                      (NcheckGuess s (pyInt u - 1) rnd).state.correct_answers + 1 }
                  cont := true
                  events := (NcheckGuess s (pyInt u - 1) rnd).events
                  gotCorrect := true } := by
              simp [NhandleGuess, hq, hs, ha, hr, hc]
            rw [hck]
            have h1 := hg.2.1
            have h2 := hg.2.2.1
            rw [hc] at h1
            simp at h1
            refine ⟨hg.1, ?_, ?_, hg.2.2.2.1, fun hfalse => Bool.noConfusion hfalse⟩
            · show (NcheckGuess s (pyInt u - 1) rnd).state.unguessed_files.length + 1
                = s.unguessed_files.length
              exact h1
            · show (NcheckGuess s (pyInt u - 1) rnd).state.correct_answers + 1
                = s.correct_answers + 1
              omega
          · have hc' : (NcheckGuess s (pyInt u - 1) rnd).isCorrect = false := by
              simpa using hc
            have heq := hg.2.2.2.2 hc'
            have hck : NhandleGuess s u rnd =
                { state := (NcheckGuess s (pyInt u - 1) rnd).state
                  cont := true
                  events := (NcheckGuess s (pyInt u - 1) rnd).events
                  gotCorrect := false } := by
              simp [NhandleGuess, hq, hs, ha, hr, hc']
            rw [hck]
            rw [heq]
            exact ⟨hcur, rfl, rfl, rfl, fun _ => ⟨rfl, rfl⟩⟩

theorem NselectAndPlay_inv (s : NormalState) (rnd : ℕ)
    (hcur : ∀ c, s.current_file = some c → c ∈ s.unguessed_files) :
    (∀ c, (NselectAndPlay s rnd).1.current_file = some c →
        c ∈ (NselectAndPlay s rnd).1.unguessed_files) ∧
    (NselectAndPlay s rnd).1.unguessed_files = s.unguessed_files ∧
    (NselectAndPlay s rnd).1.correct_answers = s.correct_answers ∧
    (NselectAndPlay s rnd).1.total_questions = s.total_questions := by
  rcases hcf : s.current_file with _ | c
  · have hck : NselectAndPlay s rnd =
        ({ s with current_file := randomChoice s.unguessed_files rnd },
         [Event.mutateClip, Event.startPlay]) := by
      simp [NselectAndPlay, hcf]
    rw [hck]
    exact ⟨fun c hc => randomChoice_mem hc, rfl, rfl, rfl⟩
  · have hck : NselectAndPlay s rnd = (s, [Event.startPlay]) := by
      simp [NselectAndPlay, hcf]
    rw [hck]
    exact ⟨hcur, rfl, rfl, rfl⟩

theorem NplayStep_inv (s : NormalState) (u : String) (rnd : ℕ) (h : NormalInv s) :
    NormalInv (NplayStep s u rnd).state ∧
    (NplayStep s u rnd).state.unguessed_files.length +
        (if (NplayStep s u rnd).gotCorrect then 1 else 0) = s.unguessed_files.length ∧
    (NplayStep s u rnd).state.correct_answers =
        s.correct_answers + (if (NplayStep s u rnd).gotCorrect then 1 else 0) ∧
    (NplayStep s u rnd).state.total_questions = s.total_questions := by
  obtain ⟨hcur, hsum⟩ := h
  have hsel := NselectAndPlay_inv s rnd hcur
  set s1 := (NselectAndPlay s rnd).1 with hs1
  have hstate : ∀ v : String, (NplayStep s v rnd).state = (NhandleUserInteraction s1 v rnd).state :=
    fun v => rfl
  have hgot : ∀ v : String, (NplayStep s v rnd).gotCorrect = (NhandleUserInteraction s1 v rnd).gotCorrect :=
    fun v => rfl
  by_cases hr : u = "r"
  · have hui : NhandleUserInteraction s1 u rnd =
        { state := s1, cont := true, events := [Event.stopJoin, Event.startPlay],
          gotCorrect := false } := by
      simp [NhandleUserInteraction, hr]
    rw [hstate u, hgot u, hui]
    simp only
    refine ⟨⟨hsel.1, ?_⟩, ?_, ?_, ?_⟩
    · rw [hsel.2.1, hsel.2.2.1, hsel.2.2.2]
      exact hsum
    · rw [hsel.2.1]; simp
    · rw [hsel.2.2.1]; simp
    · exact hsel.2.2.2
  · have hui : NhandleUserInteraction s1 u rnd =
        { NhandleGuess s1 u rnd with
          events := Event.stopJoin :: (NhandleGuess s1 u rnd).events } := by
      simp [NhandleUserInteraction, hr]
    have hg := NhandleGuess_inv s1 u rnd hsel.1
    rw [hstate u, hgot u, hui]
    simp only
    refine ⟨⟨hg.1, ?_⟩, ?_, ?_, ?_⟩
    · have h1 := hg.2.1
      have h2 := hg.2.2.1
      rw [hsel.2.1] at h1
      rw [hsel.2.2.1] at h2
      omega
    · have h1 := hg.2.1
      rw [hsel.2.1] at h1
      exact h1
    · have h2 := hg.2.2.1
      rw [hsel.2.2.1] at h2
      exact h2
    · rw [hg.2.2.2.1, hsel.2.2.2]

theorem NplayLoop_inv (inputs : List (String × ℕ)) :
    ∀ (s : NormalState), NormalInv s →
    NormalInv (NplayLoop s inputs).state ∧
    (NplayLoop s inputs).state.unguessed_files.length + (NplayLoop s inputs).ncorrect
        = s.unguessed_files.length ∧
    (NplayLoop s inputs).state.correct_answers
        = s.correct_answers + (NplayLoop s inputs).ncorrect ∧
    (NplayLoop s inputs).state.total_questions = s.total_questions := by
  induction inputs with
  | nil =>
    intro s h
    exact ⟨h, rfl, rfl, rfl⟩
  | cons p rest ih =>
    intro s h
    obtain ⟨u, rnd⟩ := p
    by_cases he : s.unguessed_files.isEmpty
    · have hck : NplayLoop s ((u, rnd) :: rest) =
          { state := s, events := [Event.endProgram], ncorrect := 0 } := by
        simp [NplayLoop, he]
      have hst : (NplayLoop s ((u, rnd) :: rest)).state = s := by rw [hck]
      have hnc : (NplayLoop s ((u, rnd) :: rest)).ncorrect = 0 := by rw [hck]
      rw [hst, hnc]
      exact ⟨h, rfl, rfl, rfl⟩
    · have hstep := NplayStep_inv s u rnd h
      by_cases hcont : (NplayStep s u rnd).cont
      · have hrest := ih (NplayStep s u rnd).state hstep.1
        have hck : NplayLoop s ((u, rnd) :: rest) =
            { state := (NplayLoop (NplayStep s u rnd).state rest).state
              events := (NplayStep s u rnd).events
                ++ (NplayLoop (NplayStep s u rnd).state rest).events
              ncorrect := (if (NplayStep s u rnd).gotCorrect then 1 else 0)
                + (NplayLoop (NplayStep s u rnd).state rest).ncorrect } := by
          simp [NplayLoop, he, hcont]
        have hst : (NplayLoop s ((u, rnd) :: rest)).state
            = (NplayLoop (NplayStep s u rnd).state rest).state := by rw [hck]
        have hnc : (NplayLoop s ((u, rnd) :: rest)).ncorrect
            = (if (NplayStep s u rnd).gotCorrect then 1 else 0)
              + (NplayLoop (NplayStep s u rnd).state rest).ncorrect := by rw [hck]
        rw [hst, hnc]
        have a1 := hrest.2.1
        have a2 := hstep.2.1
        have b1 := hrest.2.2.1
        have b2 := hstep.2.2.1
        have c1 := hrest.2.2.2
        have c2 := hstep.2.2.2
        refine ⟨hrest.1, ?_, ?_, ?_⟩
        · omega
        · omega
        · omega
      · have hck : NplayLoop s ((u, rnd) :: rest) =
            { state := (NplayStep s u rnd).state
              events := (NplayStep s u rnd).events ++ [Event.endProgram]
              ncorrect := if (NplayStep s u rnd).gotCorrect then 1 else 0 } := by
          simp [NplayLoop, he, hcont]
        have hst : (NplayLoop s ((u, rnd) :: rest)).state = (NplayStep s u rnd).state := by
          rw [hck]
        have hnc : (NplayLoop s ((u, rnd) :: rest)).ncorrect
            = if (NplayStep s u rnd).gotCorrect then 1 else 0 := by rw [hck]
        rw [hst, hnc]
        exact ⟨hstep.1, hstep.2.1, hstep.2.2.1, hstep.2.2.2⟩

/-- Claim C1 evaluated at the failing input. In line-buffered mode the
inputs r (replay) then s (skip) produce the event trace [mutateClip,
startPlay, stopJoin, startPlay, startPlay, stopJoin, mutateClip]: the
replay request starts playback twice — once inside
handle_user_interaction and once more at the top of the next loop
iteration via select_and_play_file — and the second start overwrites
self.audio_thread, orphaning the first thread, which is never joined. The
stop before the skip joins only the tracked thread, so the clip mutation
happens while a playback activity exists whose stop was never completed
by a join: the stop-before-mutate property of the trace is false. A
replay-free session (two correct guesses to completion) satisfies the
property. -/
theorem C1_stop_before_mutate_fails_on_replay :
    (NplayLoop initNormal [("r", 0), ("s", 0)]).events =
      [Event.mutateClip, Event.startPlay, Event.stopJoin, Event.startPlay,
       Event.startPlay, Event.stopJoin, Event.mutateClip] ∧
    stopBeforeMutate { trackedLive := false, orphans := 0 }
      (NplayLoop initNormal [("r", 0), ("s", 0)]).events = false ∧
    stopBeforeMutate { trackedLive := false, orphans := 0 }
      (NplayLoop initNormal [("1", 0), ("2", 0), ("2", 0)]).events = true :=
  ⟨by decide, by decide, by decide⟩

/-- Claim C3 (amended). In line-buffered mode the claim holds as stated:
the pool shrinks by exactly one element exactly at a correct resolution
and is otherwise untouched (so it never grows); over any run from an
invariant-satisfying state, with N the number of correct resolutions and
K the starting pool size, N ≤ K, the final pool size is K − N, the final
score rises by exactly N, and correctCount + |pool| = totalCount is
maintained. In interactive mode the pool instead shrinks by exactly one
element when a clip is selected for asking, with the score unchanged at
that moment (and totalCount is set to the number of titles, so
totalCount = correctCount + |pool| can fail there; see the
counterexample). -/
theorem C3_amended_pool_bookkeeping :
    (∀ (s : NormalState) (u : String) (rnd : ℕ),
      (∀ c, s.current_file = some c → c ∈ s.unguessed_files) →
      ((NhandleGuess s u rnd).gotCorrect = true →
        (NhandleGuess s u rnd).state.unguessed_files.length + 1 = s.unguessed_files.length ∧
        (NhandleGuess s u rnd).state.correct_answers = s.correct_answers + 1) ∧
      ((NhandleGuess s u rnd).gotCorrect = false →
        (NhandleGuess s u rnd).state.unguessed_files = s.unguessed_files ∧
        (NhandleGuess s u rnd).state.correct_answers = s.correct_answers)) ∧
    (∀ (inputs : List (String × ℕ)) (s : NormalState), NormalInv s →
      NormalInv (NplayLoop s inputs).state ∧
      (NplayLoop s inputs).ncorrect ≤ s.unguessed_files.length ∧
      (NplayLoop s inputs).state.unguessed_files.length + (NplayLoop s inputs).ncorrect
        = s.unguessed_files.length ∧
      (NplayLoop s inputs).state.correct_answers
        = s.correct_answers + (NplayLoop s inputs).ncorrect ∧
      (NplayLoop s inputs).state.total_questions = s.total_questions) ∧
    (∀ (si : IState) (rnd : ℕ), si.unguessed_files ≠ [] →
      (IselectNewFile si rnd).unguessed_files.length + 1 = si.unguessed_files.length ∧
      (IselectNewFile si rnd).correct_answers = si.correct_answers) := by
  refine ⟨?_, ?_, ?_⟩
  · intro s u rnd hcur
    have h := NhandleGuess_inv s u rnd hcur
    constructor
    · intro ht
      have h1 := h.2.1
      have h2 := h.2.2.1
      rw [ht] at h1 h2
      simp at h1 h2
      exact ⟨h1, h2⟩
    · exact h.2.2.2.2
  · intro inputs s h
    have hrun := NplayLoop_inv inputs s h
    have hle : (NplayLoop s inputs).ncorrect ≤ s.unguessed_files.length := by
      have := hrun.2.1
      omega
    exact ⟨hrun.1, hle, hrun.2.1, hrun.2.2.1, hrun.2.2.2⟩
  · intro si rnd hne
    obtain ⟨c, hc⟩ := randomChoice_isSome hne rnd
    have hmem : c ∈ si.unguessed_files := randomChoice_mem hc
    have hlen : (si.unguessed_files.erase c).length = si.unguessed_files.length - 1 :=
      List.length_erase_of_mem hmem
    have hpos : 0 < si.unguessed_files.length :=
      List.length_pos.mpr (List.ne_nil_of_mem hmem)
    have hck : IselectNewFile si rnd = { si with current_file := some c, unguessed_files := si.unguessed_files.erase c } := by
      simp [IselectNewFile, hc]
    rw [hck]
    refine ⟨?_, rfl⟩
    show (si.unguessed_files.erase c).length + 1 = si.unguessed_files.length
    omega

theorem C3_amended_pool_bookkeeping_witness :
    (NplayLoop initNormal [("1", 0)]).state.unguessed_files.length
        + (NplayLoop initNormal [("1", 0)]).ncorrect
      = initNormal.unguessed_files.length :=
  (C3_amended_pool_bookkeeping.2.1 [("1", 0)] initNormal
    ⟨fun c hc => by simp [initNormal] at hc, by decide⟩).2.2.1

end Shucks
